import Mathlib

/-!
Verification of the data-preparation and query core of the World Cup
dashboard (src/functions.py).

The pipeline in the source is:
  * lines 14-24 (Normalizer): take the raw finals table, drop the rows
    whose `Year` equals 2026, restrict to the columns
    `Year, Winners, Runners-up`, and replace the name "West Germany" by
    "Germany" in both the `Winners` and `Runners-up` columns;
  * lines 37-38 (Aggregator): `win_totals = df.groupby('Winners').size()`,
    one (country, wins) row per distinct winner name;
  * lines 45-46 (Geo-Joiner): `merged = pd.merge(iso, win_totals,
    on='Country', how='left')` followed by `merged['Wins'].fillna(0)`;
  * lines 156-162 (`display_win_count`): `''` on a `None` click, otherwise
    `merged.loc[merged['Country'] == country, 'Wins'].values[0]`
    interpolated into a message — `.values[0]` on an empty selection
    raises `IndexError`, which the embedding models as `none`;
  * lines 172-180 (`show_final_result`): triple `(error, winner, runnerUp)`
    with a `None` guard, a membership guard on `df['Year']`, and
    `df[df['Year'] == year].iloc[0]` — `iloc[0]` on an empty selection
    raises, which the embedding models as `none`.

Tables are embedded as lists of records; each pandas operation is the
corresponding list operation.  A left merge on a key column duplicates a
left row once per matching right row and fills a missing match with the
defaulted value, which `merged` reproduces with `filter`.
-/

/-- A row of the raw finals table (tables[3] from the source page) after
the column restriction of line 20; rows carry a year, a winners cell and
a runners-up cell.  The source also has further columns, but line 20
discards them before anything else reads them. -/
structure RawRow where
  year : Int
  winners : String
  runnersUp : String
  deriving Repr, DecidableEq

/-- A cleaned finals record: one row of `df` after lines 17-24. -/
structure FinalRecord where
  year : Int
  winners : String
  runnersUp : String
  deriving Repr, DecidableEq

/-- The alias substitution of lines 23-24: the pandas
`replace({"West Germany": 'Germany'})` applied to one cell. -/
def aliasName (s : String) : String :=
  if s == "West Germany" then "Germany" else s

/-- Lines 20-24 applied to one surviving row: restrict to the three
columns and alias both the winners and the runners-up cell. -/
def cleanRow (r : RawRow) : FinalRecord :=
  { year := r.year, winners := aliasName r.winners, runnersUp := aliasName r.runnersUp }

/-- The Normalizer, lines 14-24: `df = df[df['Year'] != 2026]` followed by
the column restriction and the alias substitution of `cleanRow`. -/
def normalizeTable (raw : List RawRow) : List FinalRecord :=
  (raw.filter (fun r => r.year != 2026)).map cleanRow

/-- The group size for one winner name:
`df.groupby('Winners').size()` evaluated at `c`. -/
def countWins (df : List FinalRecord) (c : String) : Nat :=
  (df.filter (fun r => r.winners == c)).length

/-- Lines 37-38: `win_totals = df.groupby('Winners').size().reset_index(name='Wins')`
renamed to columns `(Country, Wins)` — one row per distinct winner name,
carrying that name's group size.  (pandas orders the groups by key; the
spec declares output order insignificant, and no claim depends on it.) -/
def win_totals (df : List FinalRecord) : List (String × Nat) :=
  ((df.map (fun r => r.winners)).dedup).map (fun c => (c, countWins df c))

/-- A row of the ISO reference table (line 41-42), columns `(Country, ISO)`. -/
structure IsoRow where
  country : String
  iso : String
  deriving Repr, DecidableEq

/-- A row of the merged table of lines 45-46. -/
structure GeoEntry where
  country : String
  iso : String
  wins : Nat
  deriving Repr, DecidableEq

/-- Lines 45-46: `pd.merge(iso, win_totals, on='Country', how='left')`
followed by `merged['Wins'] = merged['Wins'].fillna(0)`.  A left merge
emits one output row per (left row, matching right row) pair and keeps an
unmatched left row with a missing `Wins`, which `fillna` turns into 0. -/
def merged (iso : List IsoRow) (wt : List (String × Nat)) : List GeoEntry :=
  (iso.map (fun r =>
    let ms := wt.filter (fun p => p.fst == r.country)
    if ms.isEmpty then [{ country := r.country, iso := r.iso, wins := 0 }]
    else ms.map (fun p => { country := r.country, iso := r.iso, wins := p.snd }))).flatten

/-- The payload of a map click: the hover label the callback reads
(`clickData['points'][0]['hovertext']`, line 160). -/
structure ClickData where
  hovertext : String
  deriving Repr, DecidableEq

/-- Lines 156-162: the click callback.  `''` on a `None` click, otherwise
`merged.loc[merged['Country'] == country, 'Wins'].values[0]` interpolated
into the message; an empty selection makes `.values[0]` raise
`IndexError`, modelled as `none`. -/
def display_win_count (clickData : Option ClickData) (m : List GeoEntry) : Option String :=
  match clickData with
  | none => some ""
  | some cd =>
    match ((m.filter (fun e => e.country == cd.hovertext)).map (fun e => e.wins)).head? with
    | none => none
    | some w => some (cd.hovertext ++ " has won the World Cup " ++ toString w ++ " time(s)")

/-- Lines 172-180: the year callback, returning the triple
`(error, winner message, runner-up message)`.  `iloc[0]` on the selection
`df[df['Year'] == year]` raises when the selection is empty, modelled as
`none`; the selection's first row is `df.find?`. -/
def show_final_result (year : Option Int) (df : List FinalRecord) :
    Option (String × String × String) :=
  match year with
  | none => some ("", "", "")
  | some y =>
    if (df.map (fun r => r.year)).contains y then
      match df.find? (fun r => r.year == y) with
      | some row =>
          some ("", "World Cup Winner in " ++ toString y ++ ": " ++ row.winners,
                "Runner up in " ++ toString y ++ ": " ++ row.runnersUp)
      | none => none
    else
      some ("Invalid WC year", "", "")

example : normalizeTable [⟨2026, "TBD", "TBD"⟩, ⟨2014, "Germany", "Argentina"⟩] =
    [⟨2014, "Germany", "Argentina"⟩] := by decide

example : win_totals [⟨1974, "Germany", "Netherlands"⟩, ⟨2014, "Germany", "Argentina"⟩,
    ⟨2002, "Brazil", "Germany"⟩] = [("Germany", 2), ("Brazil", 1)] := by decide

example : merged [⟨"Brazil", "BRA"⟩, ⟨"Canada", "CAN"⟩] [("Brazil", 5)] =
    [⟨"Brazil", "BRA", 5⟩, ⟨"Canada", "CAN", 0⟩] := by decide

example : display_win_count (some ⟨"Canada"⟩) [⟨"Brazil", "BRA", 5⟩, ⟨"Canada", "CAN", 0⟩] =
    some "Canada has won the World Cup 0 time(s)" := by decide

example : show_final_result (some 2014) [⟨2014, "Germany", "Argentina"⟩] =
    some ("", "World Cup Winner in 2014: Germany", "Runner up in 2014: Argentina") := by decide

example : show_final_result (some 1942) [⟨2014, "Germany", "Argentina"⟩] =
    some ("Invalid WC year", "", "") := by decide

/-! Helper lemmas about the aggregation and the join. -/

/-- Filtering a duplicate-free list for one key yields that key alone, or
nothing. -/
lemma filter_beq_nodup (l : List String) (c : String) (h : l.Nodup) :
    l.filter (fun x => x == c) = if c ∈ l then [c] else [] := by
  induction l with
  | nil => simp
  | cons a t ih =>
    rcases List.nodup_cons.mp h with ⟨ha, ht⟩
    by_cases hac : a = c
    · subst hac
      have htf : t.filter (fun x => x == a) = [] := by
        refine List.filter_eq_nil_iff.mpr (fun x hx => ?_)
        simp only [beq_iff_eq]
        rintro rfl
        exact ha hx
      simp [List.filter_cons, htf]
    · have hca : (c ∈ a :: t) ↔ (c ∈ t) := by
        constructor
        · intro hc
          rcases List.mem_cons.mp hc with h | hc
          · exact absurd h.symm hac
          · exact hc
        · exact fun hc => List.mem_cons_of_mem _ hc
      simp [List.filter_cons, hac, ih ht, hca]

/-- A country that never appears as a winner has group size zero. -/
lemma countWins_eq_zero (df : List FinalRecord) (c : String)
    (h : ∀ r ∈ df, r.winners ≠ c) : countWins df c = 0 := by
  unfold countWins
  rw [List.length_eq_zero]
  exact List.filter_eq_nil_iff.mpr (fun r hr => by simp [h r hr])

/-- Selecting one country out of `win_totals` returns its single group row
when the country won some final and nothing otherwise. -/
lemma win_totals_filter (df : List FinalRecord) (c : String) :
    (win_totals df).filter (fun p => p.fst == c) =
      if c ∈ df.map (fun r => r.winners) then [(c, countWins df c)] else [] := by
  unfold win_totals
  rw [List.filter_map]
  have hpred : ((fun p : String × Nat => p.fst == c) ∘ fun x => (x, countWins df x)) =
      (fun a : String => a == c) := rfl
  rw [hpred, filter_beq_nodup _ _ (List.nodup_dedup _)]
  by_cases h : c ∈ df.map (fun r => r.winners)
  · simp [h, List.mem_dedup]
  · simp [h, List.mem_dedup]

/-- The first `win_totals` row for one country is its group row when the
country won some final, and absent otherwise. -/
lemma win_totals_find (df : List FinalRecord) (c : String) :
    (win_totals df).find? (fun p => p.fst == c) =
      if c ∈ df.map (fun r => r.winners) then some (c, countWins df c) else none := by
  unfold win_totals
  rw [List.find?_map]
  have hfind : ((fun p : String × Nat => p.fst == c) ∘ fun x => (x, countWins df x)) =
      (fun a : String => a == c) := rfl
  rw [hfind]
  by_cases h : c ∈ df.map (fun r => r.winners)
  · have hmem : c ∈ (df.map (fun r => r.winners)).dedup := List.mem_dedup.mpr h
    cases hf : (df.map (fun r => r.winners)).dedup.find? (fun a => a == c) with
    | none =>
      exact absurd hmem (by simpa using List.find?_eq_none.mp hf c)
    | some x =>
      have hx : x = c := by simpa using List.find?_some hf
      simp [h, hf, hx]
  · have hmem : c ∉ (df.map (fun r => r.winners)).dedup := fun hc => h (List.mem_dedup.mp hc)
    have hf : (df.map (fun r => r.winners)).dedup.find? (fun a => a == c) = none := by
      refine List.find?_eq_none.mpr (fun x hx => ?_)
      simp only [beq_iff_eq]
      rintro rfl
      exact hmem hx
    simp [h, hf]

/-- Sums of pointwise additions split. -/
lemma sum_map_add (d : List String) (f g : String → Nat) :
    (d.map (fun c => f c + g c)).sum = (d.map f).sum + (d.map g).sum := by
  induction d with
  | nil => simp
  | cons a t ih =>
    simp [ih]
    omega

/-- Over a duplicate-free list containing `a`, the indicator of `a` sums
to one. -/
lemma sum_indicator (d : List String) (a : String) (hd : d.Nodup) (ha : a ∈ d) :
    (d.map (fun c => if a == c then 1 else 0)).sum = 1 := by
  induction d with
  | nil => cases ha
  | cons b t ih =>
    rcases List.nodup_cons.mp hd with ⟨hb, ht⟩
    by_cases hab : a = b
    · subst hab
      have hzero : (t.map (fun c => if a == c then 1 else 0)).sum = 0 := by
        refine List.sum_eq_zero (fun x hx => ?_)
        rcases List.mem_map.mp hx with ⟨c, hc, rfl⟩
        have hne : a ≠ c := by
          rintro rfl
          exact hb hc
        simp [hne]
      rw [List.map_cons, List.sum_cons, hzero]
      simp
    · have hat : a ∈ t := by
        rcases List.mem_cons.mp ha with h | h
        · exact absurd h hab
        · exact h
      rw [List.map_cons, List.sum_cons, ih ht hat]
      simp [hab]

/-- Summing, over a duplicate-free list of all the values occurring in
`l`, the number of occurrences of each value recovers the length of `l`. -/
lemma sum_count_superset (l : List String) : ∀ d : List String, d.Nodup →
    (∀ x ∈ l, x ∈ d) → (d.map (fun c => l.count c)).sum = l.length := by
  induction l with
  | nil => intro d _ _; simp
  | cons a t ih =>
    intro d hd hsub
    simp only [List.count_cons]
    rw [sum_map_add d (fun c => t.count c) (fun c => if a == c then 1 else 0)]
    rw [ih d hd (fun x hx => hsub x (List.mem_cons_of_mem a hx))]
    rw [sum_indicator d a hd (hsub a (List.mem_cons_self a t))]
    simp

/-- The group sizes taken over the distinct values of a list sum to its
length. -/
lemma sum_count_dedup (W : List String) :
    ((W.dedup).map (fun c => W.count c)).sum = W.length :=
  sum_count_superset W W.dedup (List.nodup_dedup W) (fun _ hx => List.mem_dedup.mpr hx)

/-- The group size of a winner name is its multiplicity in the winners
column. -/
lemma countWins_eq_count (df : List FinalRecord) (c : String) :
    countWins df c = (df.map (fun r => r.winners)).count c := by
  show (df.filter (fun r => r.winners == c)).length =
    (df.map (fun r => r.winners)).countP (fun x => x == c)
  rw [List.countP_map, List.countP_eq_length_filter]
  rfl

/-- Normal form of the merged table: merging the ISO reference with
`win_totals` produces exactly one row per ISO row, carrying that country's
group size (zero when the country never won). -/
lemma merged_win_totals (iso : List IsoRow) (df : List FinalRecord) :
    merged iso (win_totals df) =
      iso.map (fun r => { country := r.country, iso := r.iso, wins := countWins df r.country }) := by
  induction iso with
  | nil => rfl
  | cons a t ih =>
    unfold merged at ih ⊢
    rw [List.map_cons, List.flatten_cons, ih, List.map_cons]
    rw [win_totals_filter df a.country]
    by_cases h : a.country ∈ df.map (fun r => r.winners)
    · simp [h]
    · have hz : countWins df a.country = 0 := by
        refine countWins_eq_zero df a.country (fun r hr hc => ?_)
        exact h (List.mem_map.mpr ⟨r, hr, hc⟩)
      simp [h, hz]

/-! Claim theorems. -/

/-- Claim C2: the Geo-Joiner's output has exactly one entry per row of the
ISO reference set, and every entry's wins value equals that country's
`win_totals` row when a row with an exactly equal country name exists,
else 0. -/
theorem geo_joiner_shape (iso : List IsoRow) (df : List FinalRecord) :
    (merged iso (win_totals df)).length = iso.length ∧
    ∀ e ∈ merged iso (win_totals df),
      e.wins = ((win_totals df).find? (fun p => p.fst == e.country)).elim 0 Prod.snd := by
  constructor
  · rw [merged_win_totals, List.length_map]
  · intro e he
    rw [merged_win_totals] at he
    rcases List.mem_map.mp he with ⟨r, hr, rfl⟩
    rw [win_totals_find df r.country]
    by_cases h : r.country ∈ df.map (fun x => x.winners)
    · simp [h]
    · have hz : countWins df r.country = 0 := by
        refine countWins_eq_zero df r.country (fun rec hrec hc => ?_)
        exact h (List.mem_map.mpr ⟨rec, hrec, hc⟩)
      simp [h, hz]

/-- Witness for C2 at a concrete input. -/
theorem geo_joiner_shape_witness :
    (merged [⟨"Brazil", "BRA"⟩] (win_totals [⟨1958, "Brazil", "Sweden"⟩])).length = 1 ∧
    (⟨"Brazil", "BRA", 1⟩ : GeoEntry).wins =
      ((win_totals [⟨1958, "Brazil", "Sweden"⟩]).find?
        (fun p => p.fst == (⟨"Brazil", "BRA", 1⟩ : GeoEntry).country)).elim 0 Prod.snd := by
  have h := geo_joiner_shape [⟨"Brazil", "BRA"⟩] [⟨1958, "Brazil", "Sweden"⟩]
  exact ⟨h.1, h.2 ⟨"Brazil", "BRA", 1⟩ (by decide)⟩

/-- Claim C6: the wins values of the Aggregator's output sum to the number
of records in the normalized table — every final contributes exactly one
win. -/
theorem aggregator_sum (df : List FinalRecord) :
    ((win_totals df).map Prod.snd).sum = df.length := by
  unfold win_totals
  rw [List.map_map]
  have h1 : (Prod.snd ∘ fun c => (c, countWins df c)) = fun c => countWins df c := rfl
  rw [h1]
  simp only [countWins_eq_count]
  rw [sum_count_dedup (df.map (fun r => r.winners)), List.length_map]

/-- Claim C5: on an absent year input the year callback returns the empty
triple, which is not the INVALID_YEAR result. -/
theorem lookupByYear_noop (df : List FinalRecord) :
    show_final_result none df = some ("", "", "") ∧
    (("", "", "") : String × String × String) ≠ ("Invalid WC year", "", "") :=
  ⟨rfl, by decide⟩

/-- Claim C3: a present year input matching no record's year yields the
INVALID_YEAR error state with empty winner and runner-up slots. -/
theorem lookupByYear_invalid (df : List FinalRecord) (y : Int)
    (h : y ∉ df.map (fun r => r.year)) :
    show_final_result (some y) df = some ("Invalid WC year", "", "") := by
  simp [show_final_result, h]

/-- Witness for C3 at a concrete input. -/
theorem lookupByYear_invalid_witness :
    show_final_result (some 1942) [⟨2014, "Germany", "Argentina"⟩] =
      some ("Invalid WC year", "", "") :=
  lookupByYear_invalid [⟨2014, "Germany", "Argentina"⟩] 1942 (by decide)

/-- Claim C10: the year callback is total — for every input (absent,
matching, or non-matching) it returns a triple; the membership guard on
the year column keeps the inner first-row selection from the empty-frame
failure case. -/
theorem show_final_result_total (year : Option Int) (df : List FinalRecord) :
    (show_final_result year df).isSome = true := by
  cases year with
  | none => rfl
  | some y =>
    by_cases h : y ∈ df.map (fun r => r.year)
    · have hfind : (df.find? (fun r => r.year == y)).isSome := by
        rw [List.find?_isSome]
        rcases List.mem_map.mp h with ⟨r, hr, hy⟩
        exact ⟨r, hr, by simp [hy]⟩
      rcases Option.isSome_iff_exists.mp hfind with ⟨row, hrow⟩
      simp [show_final_result, h, hrow]
    · simp [show_final_result, h]

/-- Claim C4: a year input matching some record's year yields an empty
error slot and the winner and runner-up messages of the first matching
record; in particular the 2014 record gives Germany and Argentina. -/
theorem lookupByYear_match :
    (∀ (df : List FinalRecord) (y : Int) (row : FinalRecord),
        df.find? (fun r => r.year == y) = some row →
        show_final_result (some y) df =
          some ("", "World Cup Winner in " ++ toString y ++ ": " ++ row.winners,
                "Runner up in " ++ toString y ++ ": " ++ row.runnersUp)) ∧
    show_final_result (some 2014) [⟨2014, "Germany", "Argentina"⟩] =
      some ("", "World Cup Winner in 2014: Germany", "Runner up in 2014: Argentina") := by
  constructor
  · intro df y row hfind
    have hy : row.year = y := by simpa using List.find?_some hfind
    have hmem : y ∈ df.map (fun r => r.year) :=
      List.mem_map.mpr ⟨row, List.mem_of_find?_eq_some hfind, hy⟩
    simp [show_final_result, hmem, hfind]
  · decide

/-- Witness for C4 at a concrete input, discharging the `find?` premise. -/
theorem lookupByYear_match_witness :
    show_final_result (some 1930) [⟨1930, "Uruguay", "Argentina"⟩] =
      some ("", "World Cup Winner in " ++ toString (1930 : Int) ++ ": " ++ "Uruguay",
            "Runner up in " ++ toString (1930 : Int) ++ ": " ++ "Argentina") :=
  lookupByYear_match.1 [⟨1930, "Uruguay", "Argentina"⟩] 1930
    ⟨1930, "Uruguay", "Argentina"⟩ (by decide)

/-- Claim C8: alias substitution hits both the winners and the runners-up
column before any aggregation — a "West Germany" and a "Germany" record
are counted under the single name "Germany" — and unmapped names pass
through unchanged. -/
theorem alias_before_aggregation :
    win_totals (normalizeTable
        [⟨1974, "West Germany", "Netherlands"⟩, ⟨2014, "Germany", "Argentina"⟩]) =
      [("Germany", 2)] ∧
    normalizeTable [⟨1966, "England", "West Germany"⟩] = [⟨1966, "England", "Germany"⟩] ∧
    ∀ s : String, s ≠ "West Germany" → aliasName s = s := by
  refine ⟨by decide, by decide, ?_⟩
  intro s hs
  simp [aliasName, hs]

/-- Witness for C8: an unmapped name passes through. -/
theorem alias_before_aggregation_witness : aliasName "Brazil" = "Brazil" :=
  alias_before_aggregation.2.2 "Brazil" (by decide)

/-- Claim C9: a country present in the ISO reference that never won a
final gets the defaulted merged row, so the click callback reports zero
wins instead of failing. -/
theorem lookupByCountry_zero (iso : List IsoRow) (df : List FinalRecord) (c : String)
    (hin : ∃ r ∈ iso, r.country = c) (hwin : ∀ rec ∈ df, rec.winners ≠ c) :
    display_win_count (some ⟨c⟩) (merged iso (win_totals df)) =
      some (c ++ " has won the World Cup 0 time(s)") := by
  rw [merged_win_totals]
  have hzero : countWins df c = 0 := countWins_eq_zero df c hwin
  have hfil : ((iso.map (fun r =>
      ({ country := r.country, iso := r.iso, wins := countWins df r.country } : GeoEntry))).filter
      (fun e => e.country == c)) =
      ((iso.filter (fun r => r.country == c)).map (fun r =>
      ({ country := r.country, iso := r.iso, wins := countWins df r.country } : GeoEntry))) :=
    List.filter_map ..
  cases hF : iso.filter (fun r => r.country == c) with
  | nil =>
    exfalso
    rcases hin with ⟨r0, hr0, hc0⟩
    have : r0 ∈ iso.filter (fun r => r.country == c) :=
      List.mem_filter.mpr ⟨hr0, by simp [hc0]⟩
    rw [hF] at this
    cases this
  | cons hd tl =>
    have hhd : hd.country = c := by
      have hmem : hd ∈ iso.filter (fun r => r.country == c) := by
        rw [hF]
        exact List.mem_cons_self hd tl
      simpa using (List.mem_filter.mp hmem).2
    simp [display_win_count, hfil, hF, hhd, hzero]
    rw [String.append_assoc, String.append_assoc]
    congr 1

/-- Witness for C9 at a concrete input. -/
theorem lookupByCountry_zero_witness :
    display_win_count (some ⟨"Canada"⟩)
        (merged [⟨"Canada", "CAN"⟩] (win_totals [⟨2014, "Germany", "Argentina"⟩])) =
      some ("Canada" ++ " has won the World Cup 0 time(s)") :=
  lookupByCountry_zero [⟨"Canada", "CAN"⟩] [⟨2014, "Germany", "Argentina"⟩] "Canada"
    ⟨⟨"Canada", "CAN"⟩, by decide, rfl⟩ (by decide)

/-- Counterexample to claim C1: on a country name matching no merged row
the click callback has no value at all — the positional access on the
empty selection fails — so it does not return a "no data" sentinel. -/
theorem display_no_match_fails :
    display_win_count (some ⟨"Wakanda"⟩)
        (merged [⟨"Brazil", "BRA"⟩] (win_totals [])) = none := by decide

/-- Claim C1 as amended: for every country name matching no merged row,
the click callback fails (the positional access raises on the empty
selection); no sentinel value is produced. -/
theorem display_unmatched_raises (m : List GeoEntry) (cd : ClickData)
    (h : ∀ e ∈ m, e.country ≠ cd.hovertext) :
    display_win_count (some cd) m = none := by
  have hfil : m.filter (fun e => e.country == cd.hovertext) = [] :=
    List.filter_eq_nil_iff.mpr (fun e he => by simp [h e he])
  simp [display_win_count, hfil]

/-- Witness for the amended C1 at a concrete input. -/
theorem display_unmatched_raises_witness :
    display_win_count (some ⟨"Wakanda"⟩) [⟨"Brazil", "BRA", 5⟩] = none :=
  display_unmatched_raises [⟨"Brazil", "BRA", 5⟩] ⟨"Wakanda"⟩ (by decide)

/-- Counterexample to claim C7: a raw row for an edition with no recorded
result — the 2030 edition, with placeholder cells — is retained by the
Normalizer, because the filter only compares the year with 2026. -/
theorem normalizer_keeps_unresolved_row :
    normalizeTable [⟨2030, "TBD", "TBD"⟩] = [⟨2030, "TBD", "TBD"⟩] := by decide

/-- Claim C7 as amended: the Normalizer drops exactly the raw rows whose
year equals 2026 (the one hard-coded not-yet-played edition), keeping
every other row, and excludes by dropping rather than by any failure. -/
theorem normalizer_drops_exactly_2026 (raw : List RawRow) :
    (∀ s ∈ normalizeTable raw, s.year ≠ 2026) ∧
    (∀ r ∈ raw, r.year ≠ 2026 → cleanRow r ∈ normalizeTable raw) := by
  constructor
  · intro s hs
    rcases List.mem_map.mp hs with ⟨r, hr, rfl⟩
    have hy := (List.mem_filter.mp hr).2
    simpa [cleanRow] using hy
  · intro r hr hy
    exact List.mem_map.mpr ⟨r, List.mem_filter.mpr ⟨hr, by simp [hy]⟩, rfl⟩

/-- Witness for the amended C7 at a concrete input. -/
theorem normalizer_drops_exactly_2026_witness :
    (cleanRow ⟨2014, "Germany", "Argentina"⟩ : FinalRecord).year ≠ 2026 ∧
    cleanRow ⟨2014, "Germany", "Argentina"⟩ ∈
      normalizeTable [⟨2026, "TBD", "TBD"⟩, ⟨2014, "Germany", "Argentina"⟩] := by
  have h := normalizer_drops_exactly_2026 [⟨2026, "TBD", "TBD"⟩, ⟨2014, "Germany", "Argentina"⟩]
  have hmem := h.2 ⟨2014, "Germany", "Argentina"⟩ (by decide) (by decide)
  exact ⟨h.1 (cleanRow ⟨2014, "Germany", "Argentina"⟩) hmem, hmem⟩
